import Mathlib

/-!
Verification development for the hit-creation helpers of `lardata`
(`lardata/RecoBaseArt/HitCreator.h`): the `recob::HitCreator` record
builder, the `recob::HitAndAssociationsWriterBase` collection state with
its `put_into` commit, and the three population strategies
(`HitCollectionCreator`, `HitCollectionAssociator`,
`HitRefinerAssociator`).

The header is the authority for every operation it defines inline
(`move`, `copy`, both `size` methods, the forwarding `emplace_back`
overloads, `reserve`, `CreatePtrToLastHit`).  Operations whose bodies
live in `HitCreator.cxx` (the `HitCreator` constructors, `put_into`,
the main `emplace_back`, `prepare_associations`, `CreatePtr`) are
modelled from the specification; each such definition carries a doc
comment saying so.

Modelling conventions:
- C++ numeric measurement fields (`float`, tick counters, short
  counters) are carried as `Int`: no claim computes with them, they are
  only stored, copied and compared.
- `art::Ptr<T>` is an `Option Nat`: `none` is a default-constructed
  (invalid, null) pointer, `some k` a valid pointer with key `k`.
- `std::unique_ptr<std::vector<T>>` is an `Option (List T)`: `none` is
  a null pointer (an uninitialized container), `some l` an owned list.
- a relation table (`art::Assns`, viewed as the spec's index-aligned
  table) is a `List (Option Nat)`: position `i` holds the possibly
  absent reference for record `i`.
-/

/-- Geometric wire identifier (`geo::WireID`): cryostat, TPC, plane and
wire numbers.  Defined outside src; only its identity matters here. -/
structure WireID where
  cryostat : Nat
  tpc : Nat
  plane : Nat
  wire : Nat
deriving Repr, DecidableEq

/-- Hit record (`recob::Hit`).  Defined in `lardataobj`, outside src;
field list follows the spec's data model (channel, geometric
identifier, view, signal type, ticks, and the measurement values).
Numeric measurement fields are opaque `Int` carriers. -/
structure Hit where
  fChannel : Nat
  fStartTick : Int
  fEndTick : Int
  fPeakTime : Int
  fSigmaPeakTime : Int
  fRMS : Int
  fPeakAmplitude : Int
  fSigmaPeakAmplitude : Int
  fSummedADC : Int
  fIntegral : Int
  fSigmaIntegral : Int
  fMultiplicity : Int
  fLocalIndex : Int
  fGoodnessOfFit : Int
  fNDF : Int
  fView : Nat
  fSignalType : Nat
  fWireID : WireID
deriving Repr, DecidableEq

/-- A hit with every field zero except the channel; used as concrete
input in witnesses. -/
def testHit (ch : Nat) : Hit :=
  ⟨ch, 0, 0, 0, 0, 0, 0, 0, 0, 0, 0, 0, 0, 0, 0, 0, 0, ⟨0, 0, 0, 0⟩⟩

/-- Record builder (`recob::HitCreator`).  It holds one constructed hit
(`Hit hit` member, HitCreator.h:345).  Modelled from the spec: after
transfer-extraction the internal record is "left in an unspecified,
unusable state"; `none` stands for that state (the moved-from content of
`recob::Hit` is determined by `Hit.h`, which is not in src). -/
structure HitCreator where
  hit : Option Hit
deriving Repr, DecidableEq

/-- Modelled from the spec: the body of
`HitCreator::HitCreator(recob::Hit const& from)` (HitCreator.h:299) is
in `HitCreator.cxx`, not in src.  Per the spec, this copy-constructing
variant "clones an existing record verbatim". -/
def HitCreator.fromHit (from_ : Hit) : HitCreator :=
  ⟨some from_⟩

/-- Modelled from the spec: the body of
`HitCreator::HitCreator(recob::Hit const& from, geo::WireID const& wireID)`
(HitCreator.h:307) is in `HitCreator.cxx`, not in src.  Per the spec,
it clones the record "with a substituted geometric identifier,
preserving all other fields". -/
def HitCreator.fromHitWithWireID (from_ : Hit) (wireID : WireID) : HitCreator :=
  ⟨some { from_ with fWireID := wireID }⟩

/-- Transfer-extraction (`HitCreator::move`, HitCreator.h:324:
`Hit&& move() { return std::move(hit); }`).  The source hands out an
rvalue reference; the actual move happens at the caller.  Modelled from
the spec for the part not in src (what the transfer leaves behind):
the builder's record becomes unusable (`none`).  Returns the extracted
record (if the builder still held one) and the post-transfer builder. -/
def HitCreator.move (hc : HitCreator) : Option Hit × HitCreator :=
  (hc.hit, ⟨none⟩)

/-- Value-copy extraction (`HitCreator::copy`, HitCreator.h:341:
`const Hit& copy() const { return hit; }`).  A pure read: the builder
is not modified.  Yields `none` when the record was transferred away. -/
def HitCreator.copy (hc : HitCreator) : Option Hit :=
  hc.hit

/-- Collection state (`recob::HitAndAssociationsWriterBase`,
HitCreator.h:378-462): product instance name, the owned hit collection
and the two association tables (HitCreator.h:429-433).  The `Option`
on each container is the `unique_ptr`: `none` = null
(uninitialized container / association kind disabled). -/
structure HitAndAssociationsWriterBase where
  prod_instance : String
  hits : Option (List Hit)
  WireAssns : Option (List (Option Nat))
  RawDigitAssns : Option (List (Option Nat))
deriving Repr, DecidableEq

/-- Base-class `size` (HitCreator.h:385:
`size_t size() const { return hits? hits->size(): 0; }`). -/
def HitAndAssociationsWriterBase.size (s : HitAndAssociationsWriterBase) : Nat :=
  match s.hits with
  | none => 0
  | some hl => hl.length

/-- Derived-class `size` of the incremental builder (HitCreator.h:600:
`size_t size() const { return hits->size(); }`).  Unlike the base
version it dereferences `hits` unconditionally; `none` models the
dereference of a null `unique_ptr` (undefined behavior), `some n` the
returned count. -/
def HitCollectionCreator.size (s : HitAndAssociationsWriterBase) : Option Nat :=
  s.hits.map List.length

/-- An uninitialized collection state: no underlying record collection
(`hits` null), no association containers. -/
def uninitWriter : HitAndAssociationsWriterBase :=
  ⟨"", none, none, none⟩

/-- Modelled from the spec: the body of the `HitCollectionCreator`
constructor (HitCreator.h:488-492) is in `HitCreator.cxx`, not in src.
Per the spec, construction fixes the output name and which relation
tables are enabled, starting from empty containers. -/
def HitCollectionCreator.init (instance_name : String)
    (doWireAssns doRawDigitAssns : Bool) : HitAndAssociationsWriterBase :=
  { prod_instance := instance_name
    hits := some []
    WireAssns := if doWireAssns then some [] else none
    RawDigitAssns := if doRawDigitAssns then some [] else none }

/-- Modelled from the spec: the body of
`HitCollectionCreator::emplace_back(recob::Hit&&, Ptr<Wire>, Ptr<RawDigit>)`
(HitCreator.h:523-527) is in `HitCreator.cxx`, not in src.  Per the
header doc ("If a art pointer is not valid, that association will not be
stored") and the spec's append operation: the record is appended, each
enabled relation table gets the (possibly invalid, hence absent)
reference at the new record's position, a disabled table stays
disabled, an uninitialized collection stays uninitialized. -/
def HitCollectionCreator.emplace_back (s : HitAndAssociationsWriterBase)
    (h : Hit) (wire digits : Option Nat) : HitAndAssociationsWriterBase :=
  { s with
    hits := s.hits.map (fun hl => hl ++ [h])
    WireAssns := s.WireAssns.map (fun wl => wl ++ [wire])
    RawDigitAssns := s.RawDigitAssns.map (fun dl => dl ++ [digits]) }

/-- Forwarding overload `emplace_back(HitCreator&&, wire, digits)`
(HitCreator.h:554-559): `{ emplace_back(hit.move(), wire, digits); }` —
the record is transfer-extracted from the builder and appended.  The
already-transferred case carries no usable record, modelled as
appending nothing.  Returns the new state together with the
post-transfer builder. -/
def HitCollectionCreator.emplace_back_creator (s : HitAndAssociationsWriterBase)
    (hc : HitCreator) (wire digits : Option Nat) :
    HitAndAssociationsWriterBase × HitCreator :=
  match HitCreator.move hc with
  | (some h, hc') => (HitCollectionCreator.emplace_back s h wire digits, hc')
  | (none, hc') => (s, hc')

/-- Forwarding overload `emplace_back(recob::Hit&&, Ptr<RawDigit>)`
(HitCreator.h:570-571):
`{ emplace_back(std::move(hit), art::Ptr<recob::Wire>(), digits); }` —
supplies a default-constructed (invalid) wire pointer. -/
def HitCollectionCreator.emplace_back_digits (s : HitAndAssociationsWriterBase)
    (h : Hit) (digits : Option Nat) : HitAndAssociationsWriterBase :=
  HitCollectionCreator.emplace_back s h none digits

/-- Forwarding overload `emplace_back(HitCreator&&, Ptr<RawDigit>)`
(HitCreator.h:582-583):
`{ emplace_back(std::move(hit), art::Ptr<recob::Wire>(), digits); }` —
a builder together with only a raw-digit pointer. -/
def HitCollectionCreator.emplace_back_creator_digits
    (s : HitAndAssociationsWriterBase) (hc : HitCreator) (digits : Option Nat) :
    HitAndAssociationsWriterBase × HitCreator :=
  HitCollectionCreator.emplace_back_creator s hc none digits

/-- A sequence of appends through the incremental builder: each entry is
the hit with its wire and raw-digit pointers. -/
def applyAppends (s : HitAndAssociationsWriterBase)
    (ops : List (Hit × Option Nat × Option Nat)) : HitAndAssociationsWriterBase :=
  ops.foldl (fun st p => HitCollectionCreator.emplace_back st p.1 p.2.1 p.2.2) s

/-- What one commit hands to the output sink: the collection and the
(enabled) relation tables, under the declared name. -/
structure PutOutput where
  name : String
  outHits : List Hit
  outWireRels : Option (List (Option Nat))
  outDigitRels : Option (List (Option Nat))
deriving Repr, DecidableEq

/-- Modelled from the spec: the body of
`HitAndAssociationsWriterBase::put_into` (HitCreator.h:396) is in
`HitCreator.cxx`, not in src.  Per the header doc and the spec's
`commit`: it "transfers collection and both relation tables to the
output sink under the declared output name; after return, the object
holds empty containers".  Returns the transferred output and the
emptied state. -/
def put_into (s : HitAndAssociationsWriterBase) :
    PutOutput × HitAndAssociationsWriterBase :=
  (⟨s.prod_instance, s.hits.getD [], s.WireAssns, s.RawDigitAssns⟩,
   { s with
     hits := s.hits.map (fun _ => [])
     WireAssns := s.WireAssns.map (fun _ => [])
     RawDigitAssns := s.RawDigitAssns.map (fun _ => []) })

/-- Waveform (`recob::Wire`).  Defined outside src; only the channel
identifier matters for channel-matching association. -/
structure Wire where
  channel : Nat
deriving Repr, DecidableEq

/-- Channel-keyed source index over a waveform collection: the position
of the first waveform on the given channel, `none` when the collection
has no waveform on that channel.  The position is the opaque reference
the relation table stores. -/
def channelIndexOf : List Wire → Nat → Option Nat
  | [], _ => none
  | w :: ws, ch =>
    if w.channel = ch then some 0 else (channelIndexOf ws ch).map Nat.succ

/-- Modelled from the spec: the body of
`HitCollectionAssociator::prepare_associations` (HitCreator.h:767-768)
is in `HitCreator.cxx`, not in src.  Per the spec's bulk-associator
algorithm: for each record, look its channel up in the channel-keyed
index over the labeled waveform collection; a found waveform becomes
the wire relation for that record, a missing channel leaves the entry
absent (no error). -/
def HitCollectionAssociator.prepare_associations (wires : List Wire)
    (srchits : List Hit) : List (Option Nat) :=
  srchits.map (fun h => channelIndexOf wires h.fChannel)

/-- Lookup in a channel-to-target map represented as an association
list. -/
def findTarget : List (Nat × Nat) → Nat → Option Nat
  | [], _ => none
  | (c, t) :: m, ch => if c = ch then some t else findTarget m ch

/-- Modelled from the spec: part of
`HitRefinerAssociator::prepare_associations` (HitCreator.h:860-861),
whose body is in `HitCreator.cxx`, not in src.  One insertion into the
channel map built from the old collection's relations; per the header
doc ("If different hits on the same channel are associated to different
wires or raw digits, an exception is thrown") and the spec's conflict
rule.  A channel not yet mapped gets its target recorded; a channel
already mapped to the same target is accepted; a channel already mapped
to a different target is the refiner's fatal conflict. -/
def insertChannel (m : List (Nat × Nat)) (ch t : Nat) :
    Except String (List (Nat × Nat)) :=
  match findTarget m ch with
  | none => Except.ok ((ch, t) :: m)
  | some t' =>
    if t' = t then Except.ok m
    else Except.error "HitRefinerAssociator: conflicting associations on one channel"

/-- Modelled from the spec (continued): the channel map is built by
inserting every (channel, target) relation of the old collection in
turn; see `insertChannel` for the conflict rule. -/
def buildChannelMap : List (Nat × Nat) → Except String (List (Nat × Nat))
  | [] => Except.ok []
  | (ch, t) :: rest =>
    match buildChannelMap rest with
    | Except.error e => Except.error e
    | Except.ok m => insertChannel m ch t

/-- Modelled from the spec: the body of
`HitRefinerAssociator::prepare_associations` (HitCreator.h:860-861) is
in `HitCreator.cxx`, not in src.  Per the spec's refiner algorithm:
build the channel-to-target maps from the old collection's wire and
raw-digit relations (failing fatally on a conflict), then give each new
record the target found for its channel, or an absent entry when the
channel has no prior relation. -/
def HitRefinerAssociator.prepare_associations
    (oldWireRels oldDigitRels : List (Nat × Nat)) (newHits : List Hit) :
    Except String (List (Option Nat) × List (Option Nat)) :=
  match buildChannelMap oldWireRels with
  | Except.error e => Except.error e
  | Except.ok wm =>
    match buildChannelMap oldDigitRels with
    | Except.error e => Except.error e
    | Except.ok dm =>
      Except.ok
        (newHits.map (fun h => findTarget wm h.fChannel),
         newHits.map (fun h => findTarget dm h.fChannel))

/-- Modelled from the spec: the body of
`HitAndAssociationsWriterBase::CreatePtr` (HitCreator.h:460) is in
`HitCreator.cxx`, not in src.  It "creates an art pointer to the hit
with the specified index": a valid position-addressed reference. -/
def CreatePtr (index : Nat) : Option Nat :=
  some index

/-- `HitCollectionCreator::CreatePtrToLastHit` (HitCreator.h:626-627:
`return hits->empty()? HitPtr_t(): CreatePtr(hits->size() - 1);`).
The member dereferences `hits`; the outer `Option` models that
dereference (`none` = null `unique_ptr`).  On an existing empty
collection it yields a default-constructed (invalid) pointer. -/
def CreatePtrToLastHit (s : HitAndAssociationsWriterBase) :
    Option (Option Nat) :=
  s.hits.map (fun hl => if hl.isEmpty then none else CreatePtr (hl.length - 1))

/-! Helper lemmas. -/

/-- A sequence of appends acts componentwise: each present container
gains the corresponding projection of the appended entries. -/
theorem applyAppends_components (ops : List (Hit × Option Nat × Option Nat)) :
    ∀ s : HitAndAssociationsWriterBase,
    (applyAppends s ops).hits = s.hits.map (fun l => l ++ ops.map (fun p => p.1))
    ∧ (applyAppends s ops).WireAssns
      = s.WireAssns.map (fun l => l ++ ops.map (fun p => p.2.1))
    ∧ (applyAppends s ops).RawDigitAssns
      = s.RawDigitAssns.map (fun l => l ++ ops.map (fun p => p.2.2)) := by
  induction ops with
  | nil =>
    intro s
    obtain ⟨n, hs, ws, ds⟩ := s
    cases hs <;> cases ws <;> cases ds <;> simp [applyAppends]
  | cons p rest ih =>
    intro s
    have hstep : applyAppends s (p :: rest)
        = applyAppends (HitCollectionCreator.emplace_back s p.1 p.2.1 p.2.2) rest := rfl
    obtain ⟨e1, e2, e3⟩ := ih (HitCollectionCreator.emplace_back s p.1 p.2.1 p.2.2)
    rw [hstep]
    obtain ⟨n, hs, ws, ds⟩ := s
    refine ⟨?_, ?_, ?_⟩
    · rw [e1]; cases hs <;> simp [HitCollectionCreator.emplace_back]
    · rw [e2]; cases ws <;> simp [HitCollectionCreator.emplace_back]
    · rw [e3]; cases ds <;> simp [HitCollectionCreator.emplace_back]

/-- The channel index finds nothing exactly when no waveform in the
collection is on the channel. -/
theorem channelIndexOf_eq_none_iff (ws : List Wire) (ch : Nat) :
    channelIndexOf ws ch = none ↔ ∀ w ∈ ws, w.channel ≠ ch := by
  induction ws with
  | nil => simp [channelIndexOf]
  | cons w rest ih =>
    by_cases hc : w.channel = ch
    · simp [channelIndexOf, hc]
    · simp [channelIndexOf, hc, ih]

/-- A found channel index points at a waveform on that channel. -/
theorem channelIndexOf_some (ws : List Wire) (ch : Nat) :
    ∀ j, channelIndexOf ws ch = some j →
    ∃ w, ws.get? j = some w ∧ w.channel = ch := by
  induction ws with
  | nil => intro j h; simp [channelIndexOf] at h
  | cons w rest ih =>
    intro j h
    by_cases hc : w.channel = ch
    · simp [channelIndexOf, hc] at h
      exact h ▸ ⟨w, rfl, hc⟩
    · simp [channelIndexOf, hc] at h
      obtain ⟨j', hj', rfl⟩ := h
      obtain ⟨w', hw', hcw'⟩ := ih j' hj'
      exact ⟨w', hw', hcw'⟩

/-- A successfully built channel map reproduces every relation it was
built from: conflicting inputs can never yield a map. -/
theorem buildChannelMap_sound (l : List (Nat × Nat)) :
    ∀ m, buildChannelMap l = Except.ok m →
    ∀ ch t, (ch, t) ∈ l → findTarget m ch = some t := by
  induction l with
  | nil => intro m _ ch t hmem; simp at hmem
  | cons p rest ih =>
    obtain ⟨ch', t'⟩ := p
    intro m hok ch t hmem
    cases hrest : buildChannelMap rest with
    | error e => simp [buildChannelMap, hrest] at hok
    | ok m' =>
      simp only [buildChannelMap, hrest] at hok
      cases hft : findTarget m' ch' with
      | none =>
        simp only [insertChannel, hft] at hok
        have hm : ((ch', t') :: m') = m := by simpa using hok
        subst hm
        rcases List.mem_cons.mp hmem with heq | hmem'
        · rw [Prod.mk.injEq] at heq
          obtain ⟨rfl, rfl⟩ := heq
          simp [findTarget]
        · have hrec := ih m' hrest ch t hmem'
          by_cases hcc : ch' = ch
          · subst hcc; rw [hrec] at hft; exact absurd hft (by simp)
          · simpa [findTarget, hcc] using hrec
      | some t'' =>
        simp only [insertChannel, hft] at hok
        by_cases heq : t'' = t'
        · rw [if_pos heq] at hok
          have hm : m' = m := by simpa using hok
          subst hm
          rcases List.mem_cons.mp hmem with heqp | hmem'
          · rw [Prod.mk.injEq] at heqp
            obtain ⟨rfl, rfl⟩ := heqp
            rw [hft, heq]
          · exact ih _ hrest ch t hmem'
        · rw [if_neg heq] at hok
          exact absurd hok (by simp)

/-! Claims. -/

/-- C1: if two records of the old, already-persisted hit collection
share a channel but are related to different waveform or raw-digit
targets, then preparing associations for a new collection containing a
record on that channel fails fatally (an error is produced and
propagated); it never silently picks one of the conflicting targets. -/
theorem refiner_conflict_is_fatal (oldWireRels oldDigitRels : List (Nat × Nat))
    (newHits : List Hit) (C t1 t2 : Nat)
    (hconf : ((C, t1) ∈ oldWireRels ∧ (C, t2) ∈ oldWireRels)
      ∨ ((C, t1) ∈ oldDigitRels ∧ (C, t2) ∈ oldDigitRels))
    (hne : t1 ≠ t2)
    (hnew : ∃ h ∈ newHits, h.fChannel = C) :
    ∃ msg, HitRefinerAssociator.prepare_associations oldWireRels oldDigitRels newHits
      = Except.error msg := by
  cases hW : buildChannelMap oldWireRels with
  | error e =>
    exact ⟨e, by simp [HitRefinerAssociator.prepare_associations, hW]⟩
  | ok wm =>
    cases hD : buildChannelMap oldDigitRels with
    | error e =>
      exact ⟨e, by simp [HitRefinerAssociator.prepare_associations, hW, hD]⟩
    | ok dm =>
      exfalso
      rcases hconf with ⟨h1, h2⟩ | ⟨h1, h2⟩
      · have e1 := buildChannelMap_sound oldWireRels wm hW C t1 h1
        have e2 := buildChannelMap_sound oldWireRels wm hW C t2 h2
        rw [e1] at e2
        exact hne (Option.some.inj e2)
      · have e1 := buildChannelMap_sound oldDigitRels dm hD C t1 h1
        have e2 := buildChannelMap_sound oldDigitRels dm hD C t2 h2
        rw [e1] at e2
        exact hne (Option.some.inj e2)

/-- Witness for C1: channel 5 related to targets 1 and 2 in the old
collection, a new hit on channel 5: preparing associations errors. -/
theorem refiner_conflict_is_fatal_witness :
    ∃ msg, HitRefinerAssociator.prepare_associations [(5, 1), (5, 2)] [] [testHit 5]
      = Except.error msg :=
  refiner_conflict_is_fatal [(5, 1), (5, 2)] [] [testHit 5] 5 1 2
    (Or.inl ⟨by simp, by simp⟩) (by decide) ⟨testHit 5, by simp, rfl⟩

/-- C2: commit (`put_into`) leaves the object holding empty containers,
and a second commit on the already-empty state is a no-op: it produces
an empty second output and raises no error (the operation is total and
leaves the state unchanged). -/
theorem put_into_empties_and_second_is_noop (s : HitAndAssociationsWriterBase) :
    ((put_into s).2.hits.getD [] = []
      ∧ (put_into s).2.WireAssns.getD [] = []
      ∧ (put_into s).2.RawDigitAssns.getD [] = [])
    ∧ (put_into (put_into s).2).1.outHits = []
    ∧ (put_into (put_into s).2).1.outWireRels.getD [] = []
    ∧ (put_into (put_into s).2).1.outDigitRels.getD [] = []
    ∧ (put_into (put_into s).2).2 = (put_into s).2 := by
  obtain ⟨n, hs, ws, ds⟩ := s
  cases hs <;> cases ws <;> cases ds <;> simp [put_into]

/-- C3: at commit time each enabled relation table of the incremental
builder has length equal to the record-collection length, for the wire
table and the raw-digit table independently (and a disabled table is
absent), for every sequence of appended records. -/
theorem relation_tables_aligned_at_commit (name : String) (dw dd : Bool)
    (ops : List (Hit × Option Nat × Option Nat)) :
    ((put_into (applyAppends (HitCollectionCreator.init name dw dd) ops)).1.outWireRels.map List.length
      = if dw
        then some (put_into (applyAppends (HitCollectionCreator.init name dw dd) ops)).1.outHits.length
        else none)
    ∧ ((put_into (applyAppends (HitCollectionCreator.init name dw dd) ops)).1.outDigitRels.map List.length
      = if dd
        then some (put_into (applyAppends (HitCollectionCreator.init name dw dd) ops)).1.outHits.length
        else none) := by
  obtain ⟨e1, e2, e3⟩ := applyAppends_components ops (HitCollectionCreator.init name dw dd)
  have ho : (put_into (applyAppends (HitCollectionCreator.init name dw dd) ops)).1.outHits
      = (applyAppends (HitCollectionCreator.init name dw dd) ops).hits.getD [] := rfl
  have hw : (put_into (applyAppends (HitCollectionCreator.init name dw dd) ops)).1.outWireRels
      = (applyAppends (HitCollectionCreator.init name dw dd) ops).WireAssns := rfl
  have hd : (put_into (applyAppends (HitCollectionCreator.init name dw dd) ops)).1.outDigitRels
      = (applyAppends (HitCollectionCreator.init name dw dd) ops).RawDigitAssns := rfl
  rw [ho, hw, hd, e1, e2, e3]
  cases dw <;> cases dd <;> simp [HitCollectionCreator.init]

/-- C4: transfer-extraction is exactly-once.  Value-copy extraction
yields the record and leaves the builder intact (a further transfer
still yields it), while after a transfer the builder no longer yields a
usable record: neither a further transfer nor a copy yields the
original record values. -/
theorem transfer_extraction_exactly_once (hc : HitCreator) (h : Hit)
    (hv : hc.hit = some h) :
    HitCreator.copy hc = some h
    ∧ (HitCreator.move hc).1 = some h
    ∧ (HitCreator.move (HitCreator.move hc).2).1 ≠ some h
    ∧ HitCreator.copy (HitCreator.move hc).2 ≠ some h := by
  simp [HitCreator.copy, HitCreator.move, hv]

/-- Witness for C4 at a concrete builder holding `testHit 3`. -/
theorem transfer_extraction_exactly_once_witness :
    HitCreator.copy ⟨some (testHit 3)⟩ = some (testHit 3)
    ∧ (HitCreator.move ⟨some (testHit 3)⟩).1 = some (testHit 3)
    ∧ (HitCreator.move (HitCreator.move ⟨some (testHit 3)⟩).2).1 ≠ some (testHit 3)
    ∧ HitCreator.copy (HitCreator.move ⟨some (testHit 3)⟩).2 ≠ some (testHit 3) :=
  transfer_extraction_exactly_once ⟨some (testHit 3)⟩ (testHit 3) rfl

/-- Counterexample for C5: on the uninitialized state the base-class
`size` returns zero, but `HitCollectionCreator::size` does not return
zero — it dereferences the null collection (modelled as `none`),
refuting the claim that both return zero alike. -/
theorem size_uninitialized_counterexample :
    HitAndAssociationsWriterBase.size uninitWriter = 0
    ∧ HitCollectionCreator.size uninitWriter ≠ some 0 := by
  constructor
  · rfl
  · simp [HitCollectionCreator.size, uninitWriter]

/-- C5 (amended): `size` returns the count of records currently held;
the shared base operation additionally returns zero on an uninitialized
state, while `HitCollectionCreator::size` dereferences the collection
unconditionally — it returns the count only when the collection exists
and has no defined result (null dereference) when it does not. -/
theorem size_counts_records_amended (s : HitAndAssociationsWriterBase)
    (hl : List Hit) :
    (s.hits = none →
      HitAndAssociationsWriterBase.size s = 0
      ∧ HitCollectionCreator.size s = none)
    ∧ (s.hits = some hl →
      HitAndAssociationsWriterBase.size s = hl.length
      ∧ HitCollectionCreator.size s = some hl.length) := by
  constructor <;> intro hh <;>
    simp [HitAndAssociationsWriterBase.size, HitCollectionCreator.size, hh]

/-- Witness for the amended C5 at a one-hit state. -/
theorem size_counts_records_amended_witness :
    HitAndAssociationsWriterBase.size ⟨"", some [testHit 0], some [none], some [none]⟩ = 1
    ∧ HitCollectionCreator.size ⟨"", some [testHit 0], some [none], some [none]⟩ = some 1 :=
  (size_counts_records_amended ⟨"", some [testHit 0], some [none], some [none]⟩
    [testHit 0]).2 rfl

/-- C6: for every record handed to the bulk associator, the prepared
wire-relation entry at that record's position is the channel lookup of
its channel: absent when the labeled waveform collection has no
waveform on the channel (and no error is raised), a reference to a
waveform on exactly that channel when one exists, and a reference to
precisely the unique such waveform when the channel determines it. -/
theorem bulk_associator_channel_matching (wires : List Wire) (srchits : List Hit)
    (i : Nat) (h : Hit) (hi : srchits.get? i = some h) :
    (HitCollectionAssociator.prepare_associations wires srchits).get? i
      = some (channelIndexOf wires h.fChannel)
    ∧ ((∀ w ∈ wires, w.channel ≠ h.fChannel) →
        channelIndexOf wires h.fChannel = none)
    ∧ (∀ j, channelIndexOf wires h.fChannel = some j →
        ∃ w, wires.get? j = some w ∧ w.channel = h.fChannel)
    ∧ (∀ j w, wires.get? j = some w → w.channel = h.fChannel →
        (∀ k w', wires.get? k = some w' → w'.channel = h.fChannel → k = j) →
        channelIndexOf wires h.fChannel = some j) := by
  refine ⟨?_, ?_, ?_, ?_⟩
  · rw [show HitCollectionAssociator.prepare_associations wires srchits
        = srchits.map (fun x => channelIndexOf wires x.fChannel) from rfl,
      List.get?_map, hi]
    rfl
  · exact (channelIndexOf_eq_none_iff wires h.fChannel).mpr
  · exact channelIndexOf_some wires h.fChannel
  · intro j w hj hcw huniq
    cases hco : channelIndexOf wires h.fChannel with
    | none =>
      exfalso
      have hall := (channelIndexOf_eq_none_iff wires h.fChannel).mp hco
      exact hall w (List.get?_mem hj) hcw
    | some k =>
      obtain ⟨w', hw', hcw'⟩ := channelIndexOf_some wires h.fChannel k hco
      rw [huniq k w' hw' hcw']

/-- Witness for C6: one waveform on channel 7, one hit on channel 7,
the prepared table relates the hit to that waveform. -/
theorem bulk_associator_channel_matching_witness :
    (HitCollectionAssociator.prepare_associations [⟨7⟩] [testHit 7]).get? 0
      = some (channelIndexOf [⟨7⟩] 7)
    ∧ channelIndexOf [⟨7⟩] 7 = some 0 := by
  have hmain := bulk_associator_channel_matching [⟨7⟩] [testHit 7] 0 (testHit 7) rfl
  refine ⟨hmain.1, hmain.2.2.2 0 ⟨7⟩ rfl rfl ?_⟩
  intro k w' hk hw'
  cases k with
  | zero => rfl
  | succ k' => simp at hk

/-- C7: an append through an overload that supplies only a raw-digit
reference records the new hit and leaves the wire-relation entry at the
new record's position absent (both for the plain-record and the
builder-consuming overload); symmetrically, an append supplying only a
wire reference (the defaulted raw-digit pointer) leaves the raw-digit
entry at that position absent. -/
theorem single_reference_append_leaves_other_empty
    (s : HitAndAssociationsWriterBase) (h : Hit) (d w : Option Nat)
    (hl : List Hit) (wl dl : List (Option Nat))
    (hh : s.hits = some hl) (hw : s.WireAssns = some wl)
    (hd : s.RawDigitAssns = some dl)
    (hwl : wl.length = hl.length) (hdl : dl.length = hl.length) :
    ((HitCollectionCreator.emplace_back_digits s h d).hits = some (hl ++ [h])
      ∧ (HitCollectionCreator.emplace_back_digits s h d).WireAssns = some (wl ++ [none])
      ∧ (wl ++ [none]).get? hl.length = some none)
    ∧ (HitCollectionCreator.emplace_back_creator_digits s ⟨some h⟩ d).1.WireAssns
      = some (wl ++ [none])
    ∧ ((HitCollectionCreator.emplace_back s h w none).RawDigitAssns = some (dl ++ [none])
      ∧ (dl ++ [none]).get? hl.length = some none) := by
  refine ⟨⟨?_, ?_, ?_⟩, ?_, ?_, ?_⟩
  · simp [HitCollectionCreator.emplace_back_digits,
      HitCollectionCreator.emplace_back, hh]
  · simp [HitCollectionCreator.emplace_back_digits,
      HitCollectionCreator.emplace_back, hw]
  · rw [← hwl]
    exact List.get?_concat_length wl none
  · simp [HitCollectionCreator.emplace_back_creator_digits,
      HitCollectionCreator.emplace_back_creator, HitCreator.move,
      HitCollectionCreator.emplace_back, hw]
  · simp [HitCollectionCreator.emplace_back, hd]
  · rw [← hdl]
    exact List.get?_concat_length dl none

/-- Witness for C7 at an empty one-hit-capacity state. -/
theorem single_reference_append_leaves_other_empty_witness :
    ((HitCollectionCreator.emplace_back_digits ⟨"", some [], some [], some []⟩
        (testHit 1) (some 0)).hits = some [testHit 1]
      ∧ (HitCollectionCreator.emplace_back_digits ⟨"", some [], some [], some []⟩
        (testHit 1) (some 0)).WireAssns = some [none]
      ∧ ([] ++ [(none : Option Nat)]).get? (List.length ([] : List Hit)) = some none)
    ∧ (HitCollectionCreator.emplace_back_creator_digits ⟨"", some [], some [], some []⟩
        ⟨some (testHit 1)⟩ (some 0)).1.WireAssns = some [none]
    ∧ ((HitCollectionCreator.emplace_back ⟨"", some [], some [], some []⟩
        (testHit 1) (some 2) none).RawDigitAssns = some [none]
      ∧ ([] ++ [(none : Option Nat)]).get? (List.length ([] : List Hit)) = some none) := by
  have hmain := single_reference_append_leaves_other_empty
    ⟨"", some [], some [], some []⟩ (testHit 1) (some 0) (some 2) [] [] []
    rfl rfl rfl rfl rfl
  simpa using hmain

/-- C8: appending a transferred record builder is exactly "extract its
record by transfer, then append that record": on a builder still
holding its record, the builder-consuming overload yields the same
collection state as the plain-record overload applied to the extracted
record, together with the post-transfer builder. -/
theorem emplace_creator_is_move_then_append (s : HitAndAssociationsWriterBase)
    (hc : HitCreator) (w d : Option Nat) (h : Hit) (hv : hc.hit = some h) :
    (HitCreator.move hc).1 = some h
    ∧ HitCollectionCreator.emplace_back_creator s hc w d
      = (HitCollectionCreator.emplace_back s h w d, (HitCreator.move hc).2) := by
  constructor
  · simp [HitCreator.move, hv]
  · simp [HitCollectionCreator.emplace_back_creator, HitCreator.move, hv]

/-- Witness for C8 at a concrete state and builder. -/
theorem emplace_creator_is_move_then_append_witness :
    (HitCreator.move ⟨some (testHit 2)⟩).1 = some (testHit 2)
    ∧ HitCollectionCreator.emplace_back_creator ⟨"", some [], some [], some []⟩
        ⟨some (testHit 2)⟩ (some 4) none
      = (HitCollectionCreator.emplace_back ⟨"", some [], some [], some []⟩
          (testHit 2) (some 4) none,
         (HitCreator.move ⟨some (testHit 2)⟩).2) :=
  emplace_creator_is_move_then_append ⟨"", some [], some [], some []⟩
    ⟨some (testHit 2)⟩ (some 4) none (testHit 2) rfl

/-- C9: the copy-constructing builder variant with a substituted wire
ID produces a record with every field identical to the source — channel,
view, signal type, start and end tick, RMS, peak time and its
uncertainty, amplitude and its uncertainty, integral and its
uncertainty, summed ADC, multiplicity, local index, goodness-of-fit,
degrees of freedom — except the geometric identifier, which equals the
given one; the plain copy-constructing variant clones the record
verbatim. -/
theorem copy_construct_preserves_fields (r : Hit) (w : WireID) :
    (HitCreator.fromHit r).copy = some r
    ∧ ((HitCreator.fromHitWithWireID r w).copy).map Hit.fChannel = some r.fChannel
    ∧ ((HitCreator.fromHitWithWireID r w).copy).map Hit.fView = some r.fView
    ∧ ((HitCreator.fromHitWithWireID r w).copy).map Hit.fSignalType = some r.fSignalType
    ∧ ((HitCreator.fromHitWithWireID r w).copy).map Hit.fStartTick = some r.fStartTick
    ∧ ((HitCreator.fromHitWithWireID r w).copy).map Hit.fEndTick = some r.fEndTick
    ∧ ((HitCreator.fromHitWithWireID r w).copy).map Hit.fRMS = some r.fRMS
    ∧ ((HitCreator.fromHitWithWireID r w).copy).map Hit.fPeakTime = some r.fPeakTime
    ∧ ((HitCreator.fromHitWithWireID r w).copy).map Hit.fSigmaPeakTime = some r.fSigmaPeakTime
    ∧ ((HitCreator.fromHitWithWireID r w).copy).map Hit.fPeakAmplitude = some r.fPeakAmplitude
    ∧ ((HitCreator.fromHitWithWireID r w).copy).map Hit.fSigmaPeakAmplitude = some r.fSigmaPeakAmplitude
    ∧ ((HitCreator.fromHitWithWireID r w).copy).map Hit.fIntegral = some r.fIntegral
    ∧ ((HitCreator.fromHitWithWireID r w).copy).map Hit.fSigmaIntegral = some r.fSigmaIntegral
    ∧ ((HitCreator.fromHitWithWireID r w).copy).map Hit.fSummedADC = some r.fSummedADC
    ∧ ((HitCreator.fromHitWithWireID r w).copy).map Hit.fMultiplicity = some r.fMultiplicity
    ∧ ((HitCreator.fromHitWithWireID r w).copy).map Hit.fLocalIndex = some r.fLocalIndex
    ∧ ((HitCreator.fromHitWithWireID r w).copy).map Hit.fGoodnessOfFit = some r.fGoodnessOfFit
    ∧ ((HitCreator.fromHitWithWireID r w).copy).map Hit.fNDF = some r.fNDF
    ∧ ((HitCreator.fromHitWithWireID r w).copy).map Hit.fWireID = some w := by
  simp [HitCreator.fromHit, HitCreator.fromHitWithWireID, HitCreator.copy]

/-- C10: building a pointer to the last hit is total: on an existing
empty collection `CreatePtrToLastHit` returns the default-constructed
(invalid) pointer instead of indexing out of bounds, and on a nonempty
collection it returns a valid in-bounds position. -/
theorem createPtrToLastHit_total (s : HitAndAssociationsWriterBase)
    (hl : List Hit) (hh : s.hits = some hl) :
    (hl = [] → CreatePtrToLastHit s = some none)
    ∧ (hl ≠ [] →
      CreatePtrToLastHit s = some (some (hl.length - 1))
      ∧ hl.length - 1 < hl.length) := by
  constructor
  · intro he
    subst he
    simp [CreatePtrToLastHit, hh]
  · intro hne
    have hpos : 0 < hl.length := List.length_pos.mpr hne
    constructor
    · simp [CreatePtrToLastHit, hh, CreatePtr, List.isEmpty_iff, hne]
    · exact Nat.sub_lt hpos Nat.one_pos

/-- Witness for C10: the empty and a one-hit collection. -/
theorem createPtrToLastHit_total_witness :
    CreatePtrToLastHit ⟨"", some [], none, none⟩ = some none
    ∧ CreatePtrToLastHit ⟨"", some [testHit 0], none, none⟩ = some (some 0) := by
  constructor
  · exact (createPtrToLastHit_total ⟨"", some [], none, none⟩ [] rfl).1 rfl
  · have hmain := (createPtrToLastHit_total ⟨"", some [testHit 0], none, none⟩
      [testHit 0] rfl).2 (by simp)
    simpa using hmain.1
